import Mathlib

/-!
Shallow embedding of `limit/limit_order_agent.py` (PyLimitOrders).

The Python module defines an `Order` data class and a `LimitOrderAgent` whose
background thread `_process_queue` repeatedly: checks the queue, reads the head
order, fetches a price via `on_price_tick`, calls `execute_orders`, and sleeps.
`execute_orders` compares the order's limit price with the current price,
invokes the execution client's `buy`/`sell`, pops the front of the queue, and
wraps any exception into an `ExecutionException` with a fixed message.

Prices (Python floats compared with `<=`/`>=`) are modelled as rationals;
quantities (Python ints) as `Int`.  The execution client is modelled by two
boolean oracles saying whether a `buy`/`sell` call returns normally or raises.
Observable behaviour (venue calls, price-tick calls, sleeps) is recorded as an
event trace.
-/

/-- The `Order` class: four fields set by `__init__`. -/
structure Order where
  order_type : String
  product_id : String
  quantity : Int
  limit_price : Rat
deriving DecidableEq, Repr

/-- Python `str.lower()`: lower-case every character of the string. -/
def strLower (s : String) : String := ⟨s.data.map Char.toLower⟩

/-- `Order.__init__(self, flag, product_id, quantity, limit_price)`:
`self.order_type = flag.lower()`, the other fields stored unchanged.
A total function: no validation, no failure path. -/
def Order.init (flag : String) (product_id : String) (quantity : Int)
    (limit_price : Rat) : Order :=
  { order_type := strLower flag
    product_id := product_id
    quantity := quantity
    limit_price := limit_price }

/-- A call made on the `ExecutionClient` (`buy` or `sell`). -/
inductive VenueCall where
  | buy (product_id : String) (quantity : Int)
  | sell (product_id : String) (quantity : Int)
deriving DecidableEq, Repr

/-- The `ExecutionClient` collaborator: the oracles record, for each possible
call, whether it returns normally (`true`) or raises (`false`). -/
structure ExecutionClient where
  buyOk : String → Int → Bool
  sellOk : String → Int → Bool

/-- The fixed message of the `ExecutionException` raised by `execute_orders`. -/
def execMsg : String := "Error during executing orders"

/-- Result of one `execute_orders` call: the venue calls it made, the resulting
`order_queue`, and `some msg` when it raises `ExecutionException(msg)`. -/
structure ExecResult where
  calls : List VenueCall
  queue : List Order
  err : Option String
deriving DecidableEq, Repr

/-- `LimitOrderAgent.execute_orders(order, current_price)` acting on
`order_queue`.  Mirrors the Python `try` block: on a matched buy (resp. sell)
the client call is made; if it raises, or if the subsequent
`order_queue.pop(0)` raises `IndexError` (empty queue), the `except` clause
raises `ExecutionException(execMsg)` and the queue is left as it was;
otherwise the front element is removed.  On no match, nothing happens. -/
def execute_orders (client : ExecutionClient) (order_queue : List Order)
    (order : Order) (current_price : Rat) : ExecResult :=
  if order.order_type = "buy" ∧ order.limit_price ≥ current_price then
    let c := VenueCall.buy order.product_id order.quantity
    if client.buyOk order.product_id order.quantity then
      match order_queue with
      | [] => { calls := [c], queue := [], err := some execMsg }
      | _ :: rest => { calls := [c], queue := rest, err := none }
    else
      { calls := [c], queue := order_queue, err := some execMsg }
  else if order.order_type = "sell" ∧ order.limit_price ≤ current_price then
    let c := VenueCall.sell order.product_id order.quantity
    if client.sellOk order.product_id order.quantity then
      match order_queue with
      | [] => { calls := [c], queue := [], err := some execMsg }
      | _ :: rest => { calls := [c], queue := rest, err := none }
    else
      { calls := [c], queue := order_queue, err := some execMsg }
  else
    { calls := [], queue := order_queue, err := none }

/-- Observable events of the worker loop: a price fetch (`on_price_tick`),
a venue call, or a `time.sleep(t)`. -/
inductive Event where
  | priceTick (product_id : String)
  | venue (c : VenueCall)
  | sleep (t : Nat)
deriving DecidableEq, Repr

/-- `true` exactly on venue (buy/sell) events. -/
def Event.isVenue : Event → Bool
  | Event.venue _ => true
  | _ => false

/-- One iteration of the `while` loop in `_process_queue`, given the price the
simulated `on_price_tick` would return this cycle.  With an empty queue the
body of the `if` is skipped entirely (no price fetch, no sleep).  Otherwise the
head is read, the price fetched, `execute_orders` runs, and — only if it did
not raise — `time.sleep(1)` executes; an exception propagates out of the loop. -/
def cycle (client : ExecutionClient) (price : Rat) (q : List Order) :
    List Event × List Order × Option String :=
  match q with
  | [] => ([], [], none)
  | order :: rest =>
    let r := execute_orders client (order :: rest) order price
    match r.err with
    | some e => (Event.priceTick order.product_id :: r.calls.map Event.venue, r.queue, some e)
    | none =>
      (Event.priceTick order.product_id :: (r.calls.map Event.venue ++ [Event.sleep 1]),
        r.queue, none)

/-- `_process_queue` run for `fuel` iterations starting at cycle index `i`,
with `prices j` the price `on_price_tick` yields at cycle `j`.  An exception
raised by `execute_orders` propagates and terminates the loop (the thread
dies); otherwise the loop continues until the stop event (fuel exhaustion). -/
def runAux (client : ExecutionClient) (prices : Nat → Rat) :
    Nat → Nat → List Order → List Event × List Order × Option String
  | _, 0, q => ([], q, none)
  | i, fuel + 1, q =>
    let r := cycle client (prices i) q
    match r.2.2 with
    | some e => (r.1, r.2.1, some e)
    | none =>
      let s := runAux client prices (i + 1) fuel r.2.1
      (r.1 ++ s.1, s.2.1, s.2.2)

/-- A concrete order used to instantiate theorems on concrete inputs. -/
def wOrder : Order :=
  { order_type := "buy", product_id := "X", quantity := 1000, limit_price := 100 }

/-- A concrete execution client whose calls always succeed. -/
def wClient : ExecutionClient :=
  { buyOk := fun _ _ => true, sellOk := fun _ _ => true }

/-- A concrete execution client whose calls always raise. -/
def failClient : ExecutionClient :=
  { buyOk := fun _ _ => false, sellOk := fun _ _ => false }

/-- C6: the `Order` constructor lower-cases `flag` into `order_type`, stores
`product_id`, `quantity` and `limit_price` unchanged, is case-insensitive in
`flag` (flags with equal lower-casings yield equal orders), and — being a
total function — never fails: no validation happens at construction. -/
theorem C6_order_init (flag product_id : String) (quantity : Int) (limit_price : Rat) :
    (Order.init flag product_id quantity limit_price).order_type = strLower flag
    ∧ (Order.init flag product_id quantity limit_price).product_id = product_id
    ∧ (Order.init flag product_id quantity limit_price).quantity = quantity
    ∧ (Order.init flag product_id quantity limit_price).limit_price = limit_price
    ∧ ∀ flag2 : String, strLower flag2 = strLower flag →
        Order.init flag2 product_id quantity limit_price
          = Order.init flag product_id quantity limit_price := by
  refine ⟨rfl, rfl, rfl, rfl, ?_⟩
  intro flag2 h
  simp [Order.init, h]

/-- C6 witness: the constructor at concrete inputs, with two spellings of the
side that differ only in case producing the same order. -/
theorem C6_order_init_witness :
    (Order.init "BUY" "X" 1000 100).order_type = strLower "BUY"
    ∧ (Order.init "BUY" "X" 1000 100).product_id = "X"
    ∧ (Order.init "BUY" "X" 1000 100).quantity = 1000
    ∧ (Order.init "BUY" "X" 1000 100).limit_price = 100
    ∧ Order.init "Buy" "X" 1000 100 = Order.init "BUY" "X" 1000 100 := by
  have h := C6_order_init "BUY" "X" 1000 100
  exact ⟨h.1, h.2.1, h.2.2.1, h.2.2.2.1, h.2.2.2.2 "Buy" (by decide)⟩

/-- C1: for a buy-side order at the head of the queue, with a succeeding
client, `execute_orders` executes iff the current price is at most the limit
price; when it executes it calls exactly `buy(product_id, quantity)` and
removes the head order; `sell` is never called for a buy order. -/
theorem C1_buy_execution (client : ExecutionClient) (order : Order)
    (rest : List Order) (p : Rat)
    (hside : order.order_type = "buy")
    (hok : client.buyOk order.product_id order.quantity = true) :
    (VenueCall.buy order.product_id order.quantity
        ∈ (execute_orders client (order :: rest) order p).calls ↔ p ≤ order.limit_price)
    ∧ ((execute_orders client (order :: rest) order p).queue = rest ↔ p ≤ order.limit_price)
    ∧ (p ≤ order.limit_price →
        (execute_orders client (order :: rest) order p).calls
            = [VenueCall.buy order.product_id order.quantity]
        ∧ (execute_orders client (order :: rest) order p).queue = rest
        ∧ (execute_orders client (order :: rest) order p).err = none)
    ∧ ∀ pid qty, VenueCall.sell pid qty ∉ (execute_orders client (order :: rest) order p).calls := by
  by_cases h : p ≤ order.limit_price
  · simp [execute_orders, hside, hok, ge_iff_le, h]
  · simp [execute_orders, hside, hok, ge_iff_le, h]

/-- C1 witness: a buy order with limit 100 against price 100 executes: `buy`
is called once, the order leaves the queue, no exception, no `sell`. -/
theorem C1_buy_execution_witness :
    (VenueCall.buy wOrder.product_id wOrder.quantity
        ∈ (execute_orders wClient (wOrder :: []) wOrder 100).calls ↔ (100:Rat) ≤ wOrder.limit_price)
    ∧ ((execute_orders wClient (wOrder :: []) wOrder 100).queue = [] ↔ (100:Rat) ≤ wOrder.limit_price)
    ∧ ((100:Rat) ≤ wOrder.limit_price →
        (execute_orders wClient (wOrder :: []) wOrder 100).calls
            = [VenueCall.buy wOrder.product_id wOrder.quantity]
        ∧ (execute_orders wClient (wOrder :: []) wOrder 100).queue = []
        ∧ (execute_orders wClient (wOrder :: []) wOrder 100).err = none)
    ∧ ∀ pid qty, VenueCall.sell pid qty ∉ (execute_orders wClient (wOrder :: []) wOrder 100).calls :=
  C1_buy_execution wClient wOrder [] 100 rfl rfl

/-- C2: for a sell-side order at the head of the queue, with a succeeding
client, `execute_orders` executes iff the current price is at least the limit
price; when it executes it calls exactly `sell(product_id, quantity)` and
removes the head order; `buy` is never called for a sell order. -/
theorem C2_sell_execution (client : ExecutionClient) (order : Order)
    (rest : List Order) (p : Rat)
    (hside : order.order_type = "sell")
    (hok : client.sellOk order.product_id order.quantity = true) :
    (VenueCall.sell order.product_id order.quantity
        ∈ (execute_orders client (order :: rest) order p).calls ↔ order.limit_price ≤ p)
    ∧ ((execute_orders client (order :: rest) order p).queue = rest ↔ order.limit_price ≤ p)
    ∧ (order.limit_price ≤ p →
        (execute_orders client (order :: rest) order p).calls
            = [VenueCall.sell order.product_id order.quantity]
        ∧ (execute_orders client (order :: rest) order p).queue = rest
        ∧ (execute_orders client (order :: rest) order p).err = none)
    ∧ ∀ pid qty, VenueCall.buy pid qty ∉ (execute_orders client (order :: rest) order p).calls := by
  by_cases h : order.limit_price ≤ p
  · simp [execute_orders, hside, hok, ge_iff_le, h]
  · simp [execute_orders, hside, hok, ge_iff_le, h]

/-- C2 witness: a sell order with limit 100 against price 100 executes:
`sell` is called once, the order leaves the queue, no `buy`. -/
theorem C2_sell_execution_witness :
    (VenueCall.sell "X" 1000
        ∈ (execute_orders wClient ({ wOrder with order_type := "sell" } :: []) { wOrder with order_type := "sell" } 100).calls
      ↔ ({ wOrder with order_type := "sell" } : Order).limit_price ≤ (100:Rat))
    ∧ ((execute_orders wClient ({ wOrder with order_type := "sell" } :: []) { wOrder with order_type := "sell" } 100).queue = []
      ↔ ({ wOrder with order_type := "sell" } : Order).limit_price ≤ (100:Rat))
    ∧ (({ wOrder with order_type := "sell" } : Order).limit_price ≤ (100:Rat) →
        (execute_orders wClient ({ wOrder with order_type := "sell" } :: []) { wOrder with order_type := "sell" } 100).calls
            = [VenueCall.sell "X" 1000]
        ∧ (execute_orders wClient ({ wOrder with order_type := "sell" } :: []) { wOrder with order_type := "sell" } 100).queue = []
        ∧ (execute_orders wClient ({ wOrder with order_type := "sell" } :: []) { wOrder with order_type := "sell" } 100).err = none)
    ∧ ∀ pid qty, VenueCall.buy pid qty
        ∉ (execute_orders wClient ({ wOrder with order_type := "sell" } :: []) { wOrder with order_type := "sell" } 100).calls :=
  C2_sell_execution wClient { wOrder with order_type := "sell" } [] 100 rfl rfl

/-- C5: when the head order matches neither the buy nor the sell condition for
the fetched price, the cycle changes no state: the queue is unchanged (the
order stays at the head), no venue call is made, and the cycle's only events
are the price fetch and the sleep. -/
theorem C5_no_match_frame (client : ExecutionClient) (order : Order)
    (rest : List Order) (p : Rat)
    (hbuy : ¬(order.order_type = "buy" ∧ order.limit_price ≥ p))
    (hsell : ¬(order.order_type = "sell" ∧ order.limit_price ≤ p)) :
    cycle client p (order :: rest)
      = ([Event.priceTick order.product_id, Event.sleep 1], order :: rest, none) := by
  simp [cycle, execute_orders, hbuy, hsell]

/-- C5 witness: a buy order with limit 50 against price 60 — no match; the
queue and the event trace of the cycle are exactly as stated. -/
theorem C5_no_match_frame_witness :
    cycle wClient 60 ({ wOrder with limit_price := 50 } :: [])
      = ([Event.priceTick "X", Event.sleep 1], { wOrder with limit_price := 50 } :: [], none) :=
  C5_no_match_frame wClient { wOrder with limit_price := 50 } [] 60
    (by decide) (by decide)

/-- C3: when the head order's condition is met but the client call raises, the
cycle propagates `ExecutionException(execMsg)`, the queue is unchanged (the
order is not removed), and exactly one venue call was made in the cycle (no
retry within the cycle). -/
theorem C3_failed_execution (client : ExecutionClient) (order : Order)
    (rest : List Order) (p : Rat)
    (h : (order.order_type = "buy" ∧ order.limit_price ≥ p
            ∧ client.buyOk order.product_id order.quantity = false)
       ∨ (order.order_type = "sell" ∧ order.limit_price ≤ p
            ∧ client.sellOk order.product_id order.quantity = false)) :
    (cycle client p (order :: rest)).2.2 = some execMsg
    ∧ (cycle client p (order :: rest)).2.1 = order :: rest
    ∧ ((cycle client p (order :: rest)).1.filter Event.isVenue).length = 1 := by
  rcases h with ⟨hs, hp, hf⟩ | ⟨hs, hp, hf⟩
  · simp [cycle, execute_orders, hs, hp, hf, Event.isVenue]
  · simp [cycle, execute_orders, hs, hp, hf, Event.isVenue]

/-- C3 witness: a matched sell order whose client `sell` call raises: the
exception surfaces, the order stays queued, one venue call was made. -/
theorem C3_failed_execution_witness :
    (cycle failClient 100 ({ wOrder with order_type := "sell" } :: [])).2.2 = some execMsg
    ∧ (cycle failClient 100 ({ wOrder with order_type := "sell" } :: [])).2.1
        = { wOrder with order_type := "sell" } :: []
    ∧ ((cycle failClient 100 ({ wOrder with order_type := "sell" } :: [])).1.filter
        Event.isVenue).length = 1 :=
  C3_failed_execution failClient { wOrder with order_type := "sell" } [] 100
    (Or.inr ⟨rfl, by decide, rfl⟩)

/-- C4 counterexample: an iteration with an empty queue produces no events at
all — in particular no `Event.sleep 1` — refuting "every iteration of the
worker loop sleeps for the fixed poll interval, whether or not an order was
present". -/
theorem C4_counterexample :
    (cycle wClient 5 []).1 = [] ∧ Event.sleep 1 ∉ (cycle wClient 5 []).1 := by
  exact ⟨rfl, by simp [cycle]⟩

/-- C4 amended: an iteration sleeps for the poll interval iff an order was
present in the queue and `execute_orders` completed without raising; an
empty-queue iteration (and an iteration ending in an exception) does not
sleep. -/
theorem C4_sleep_iff (client : ExecutionClient) (p : Rat) (q : List Order) :
    Event.sleep 1 ∈ (cycle client p q).1
      ↔ q ≠ [] ∧ (cycle client p q).2.2 = none := by
  cases q with
  | nil => simp [cycle]
  | cons order rest =>
    cases herr : (execute_orders client (order :: rest) order p).err with
    | some e => simp [cycle, herr]
    | none => simp [cycle, herr]

/-- C10: `execute_orders` reports every failure as `ExecutionException` with
the fixed message `execMsg` (its error is always `none` or `some execMsg`);
and when called directly with a matching buy order, a succeeding client, and
an empty `order_queue`, the venue call is made and succeeds yet the failing
`pop(0)` still turns the outcome into `some execMsg`. -/
theorem C10_exception_wrap (client : ExecutionClient) (q : List Order)
    (order : Order) (p : Rat) :
    ((execute_orders client q order p).err = none
      ∨ (execute_orders client q order p).err = some execMsg)
    ∧ (order.order_type = "buy" → order.limit_price ≥ p →
        client.buyOk order.product_id order.quantity = true →
        (execute_orders client [] order p).err = some execMsg
        ∧ (execute_orders client [] order p).calls
            = [VenueCall.buy order.product_id order.quantity]) := by
  constructor
  · unfold execute_orders
    split_ifs <;> cases q <;> simp
  · intro hs hp hok
    simp [execute_orders, hs, hp, hok]

/-- C10 witness: the matching buy order against an empty queue — `buy`
succeeds and is recorded, yet the result is the fixed `ExecutionException`. -/
theorem C10_exception_wrap_witness :
    ((execute_orders wClient [] wOrder 100).err = none
      ∨ (execute_orders wClient [] wOrder 100).err = some execMsg)
    ∧ (execute_orders wClient [] wOrder 100).err = some execMsg
    ∧ (execute_orders wClient [] wOrder 100).calls = [VenueCall.buy "X" 1000] := by
  have h := C10_exception_wrap wClient [] wOrder 100
  exact ⟨h.1, h.2 rfl (by decide) rfl⟩

/-- Helper: `execute_orders` either leaves `order_queue` unchanged or removes
exactly its front element (the `pop(0)`). -/
theorem execute_orders_queue_eq_or_tail (client : ExecutionClient)
    (q : List Order) (order : Order) (p : Rat) :
    (execute_orders client q order p).queue = q
      ∨ (execute_orders client q order p).queue = q.tail := by
  unfold execute_orders
  split_ifs <;> cases q <;> simp

/-- Helper: a cycle either leaves the queue unchanged or removes exactly the
front element. -/
theorem cycle_queue_eq_or_tail (client : ExecutionClient) (p : Rat)
    (q : List Order) :
    (cycle client p q).2.1 = q ∨ (cycle client p q).2.1 = q.tail := by
  cases q with
  | nil => left; rfl
  | cons order rest =>
    have h := execute_orders_queue_eq_or_tail client (order :: rest) order p
    cases herr : (execute_orders client (order :: rest) order p).err with
    | some e => simpa [cycle, herr] using h
    | none => simpa [cycle, herr] using h

/-- Helper: a cycle on a non-empty queue starts its event trace with the price
fetch for the head order's product. -/
theorem cycle_events_head (client : ExecutionClient) (p : Rat) (order : Order)
    (rest : List Order) :
    ∃ tl, (cycle client p (order :: rest)).1
      = Event.priceTick order.product_id :: tl := by
  cases herr : (execute_orders client (order :: rest) order p).err with
  | some e =>
    refine ⟨(execute_orders client (order :: rest) order p).calls.map Event.venue, ?_⟩
    simp [cycle, herr]
  | none =>
    refine ⟨(execute_orders client (order :: rest) order p).calls.map Event.venue
      ++ [Event.sleep 1], ?_⟩
    simp [cycle, herr]

/-- C8: with an empty queue, any run of the worker loop (any number of cycles,
from start to stop) produces no events at all — no `on_price_tick` call and no
venue call — leaves the queue empty, and raises nothing. -/
theorem C8_empty_queue_run (client : ExecutionClient) (prices : Nat → Rat)
    (i n : Nat) :
    runAux client prices i n [] = ([], [], none) := by
  induction n generalizing i with
  | zero => rfl
  | succ n ih => simp [runAux, cycle, ih]

/-- C7: FIFO processing. In every cycle the queue is either untouched or loses
exactly its head, and when the head is removed its product's price was fetched
(it was evaluated) in that same cycle; consequently over any run the resulting
queue is a suffix of the starting queue — an order is never removed before all
orders submitted ahead of it. -/
theorem C7_fifo (client : ExecutionClient) (p : Rat) (q : List Order) :
    ((cycle client p q).2.1 = q
      ∨ ∃ o rest, q = o :: rest ∧ (cycle client p q).2.1 = rest
          ∧ Event.priceTick o.product_id ∈ (cycle client p q).1)
    ∧ ∀ prices i n, (runAux client prices i n q).2.1 <:+ q := by
  constructor
  · cases q with
    | nil => left; rfl
    | cons order rest =>
      rcases cycle_queue_eq_or_tail client p (order :: rest) with h | h
      · left; exact h
      · right
        obtain ⟨tl, htl⟩ := cycle_events_head client p order rest
        exact ⟨order, rest, rfl, h, by rw [htl]; exact List.mem_cons_self _ _⟩
  · intro prices i n
    induction n generalizing i q with
    | zero => exact List.suffix_refl q
    | succ n ih =>
      have hq : (cycle client (prices i) q).2.1 <:+ q := by
        rcases cycle_queue_eq_or_tail client (prices i) q with h | h
        · rw [h]
        · rw [h]; exact List.tail_suffix q
      cases herr : (cycle client (prices i) q).2.2 with
      | some e => simpa [runAux, herr] using hq
      | none =>
        have := ih (cycle client (prices i) q).2.1 (i + 1)
        simp only [runAux, herr]
        exact this.trans hq

/-- C9: an order whose `order_type` is neither `"buy"` nor `"sell"` falls
through to the `else` branch of `execute_orders` every cycle: no venue call is
ever made for it, it is never removed, and over any run it stays at the head
of the queue (blocking all orders behind it) with no venue event and no
exception. -/
theorem C9_unknown_side (client : ExecutionClient) (order : Order)
    (rest : List Order)
    (hb : order.order_type ≠ "buy") (hs : order.order_type ≠ "sell") :
    (∀ p, cycle client p (order :: rest)
        = ([Event.priceTick order.product_id, Event.sleep 1], order :: rest, none))
    ∧ ∀ prices i n,
        (runAux client prices i n (order :: rest)).2.1 = order :: rest
        ∧ (runAux client prices i n (order :: rest)).2.2 = none
        ∧ ∀ e ∈ (runAux client prices i n (order :: rest)).1,
            Event.isVenue e = false := by
  have hcyc : ∀ p, cycle client p (order :: rest)
      = ([Event.priceTick order.product_id, Event.sleep 1], order :: rest, none) := by
    intro p
    simp [cycle, execute_orders, hb, hs]
  refine ⟨hcyc, ?_⟩
  intro prices i n
  induction n generalizing i with
  | zero => exact ⟨rfl, rfl, by intro e he; simp [runAux] at he⟩
  | succ n ih =>
    obtain ⟨ihq, ihe, ihv⟩ := ih (i + 1)
    refine ⟨?_, ?_, ?_⟩
    · simp [runAux, hcyc (prices i), ihq]
    · simp [runAux, hcyc (prices i), ihe]
    · have hstep : (runAux client prices i (n + 1) (order :: rest)).1
          = Event.priceTick order.product_id
              :: (Event.sleep 1 :: (runAux client prices (i + 1) n (order :: rest)).1) := by
        simp [runAux, hcyc (prices i)]
      intro e he
      rw [hstep] at he
      rcases List.mem_cons.mp he with h | h
      · rw [h]; rfl
      rcases List.mem_cons.mp h with h2 | h2
      · rw [h2]; rfl
      · exact ihv e h2

/-- C9 witness: an order with side `"hold"` at the head: one cycle leaves it
in place with only a price tick and a sleep, and a two-cycle run leaves the
queue unchanged with no venue event. -/
theorem C9_unknown_side_witness :
    (cycle wClient 5 ({ wOrder with order_type := "hold" } :: [])
        = ([Event.priceTick "X", Event.sleep 1],
            { wOrder with order_type := "hold" } :: [], none))
    ∧ (runAux wClient (fun _ => 5) 0 2 ({ wOrder with order_type := "hold" } :: [])).2.1
        = { wOrder with order_type := "hold" } :: []
    ∧ ∀ e ∈ (runAux wClient (fun _ => 5) 0 2 ({ wOrder with order_type := "hold" } :: [])).1,
        Event.isVenue e = false := by
  have h := C9_unknown_side wClient { wOrder with order_type := "hold" } []
    (by decide) (by decide)
  exact ⟨h.1 5, (h.2 (fun _ => 5) 0 2).1, (h.2 (fun _ => 5) 0 2).2.2⟩

/-- C4 amended, at a concrete input: a cycle on a one-order queue whose order
executes cleanly does contain the sleep event. -/
theorem C4_sleep_iff_witness :
    Event.sleep 1 ∈ (cycle wClient 100 (wOrder :: [])).1
      ↔ wOrder :: [] ≠ [] ∧ (cycle wClient 100 (wOrder :: [])).2.2 = none :=
  C4_sleep_iff wClient 100 (wOrder :: [])

/-- C7 at a concrete input: one cycle on a one-order queue, and a three-cycle
run, both only ever shrink the queue from the front. -/
theorem C7_fifo_witness :
    ((cycle wClient 100 (wOrder :: [])).2.1 = wOrder :: []
      ∨ ∃ o rest, wOrder :: [] = o :: rest
          ∧ (cycle wClient 100 (wOrder :: [])).2.1 = rest
          ∧ Event.priceTick o.product_id ∈ (cycle wClient 100 (wOrder :: [])).1)
    ∧ (runAux wClient (fun _ => 100) 0 3 (wOrder :: [])).2.1 <:+ wOrder :: [] := by
  have h := C7_fifo wClient 100 (wOrder :: [])
  exact ⟨h.1, h.2 (fun _ => 100) 0 3⟩

/-- C8 at a concrete input: three cycles over an empty queue yield no events. -/
theorem C8_empty_queue_run_witness :
    runAux wClient (fun _ => 7) 0 3 [] = ([], [], none) :=
  C8_empty_queue_run wClient (fun _ => 7) 0 3
